import Mathlib

/-!
# go_todo: the in-memory item store of `main.go`

Shallow embedding of `Todo`, `TodoManager` and its methods
(`NewTodoManager`, `Add`, `GetAll`, `GetByID`, `Update`, `Delete`,
`ToggleCompleted`) and of the update branch (`case "3"`) of the loop in
`main`, followed by the properties proved about them.

Modelling conventions:

* a Go slice `[]Todo` is a `List Todo` (the value of the slice; capacity and
  sharing of the backing array are not observable through the methods);
* a method with a pointer receiver takes the store and returns the new store
  together with the Go return values;
* a Go `int` is an `Int` within `[minInt, maxInt]` for the width of `int` on
  the target (`IntSize`, 32 or 64 bits); the only arithmetic in the store is
  `m.nextId++`, which wraps from `maxInt` to `minInt` (`wrapInt`);
* `time.Time` is an instant counted from the zero `time.Time`, and the reading
  of `time.Now()` inside `Add` is an explicit argument `now`;
* the library function `strings.ToLower` is an argument of the update branch,
  and the lines read from standard input are its string arguments.
-/

namespace GoTodo

/-! ## The Go type `int` -/

/-- The width of the Go type `int`, which the language fixes per target at 32
or 64 bits. -/
inductive IntSize where
  | bits32
  | bits64
deriving DecidableEq, Repr

/-- Number of bits of `int`. -/
def IntSize.bits : IntSize → Nat
  | IntSize.bits32 => 32
  | IntSize.bits64 => 64

/-- Largest value of `int` (`math.MaxInt`). -/
def maxInt (sz : IntSize) : Int :=
  2 ^ (sz.bits - 1) - 1

/-- The `int` that Go's wrapping two's-complement arithmetic stores for the
mathematical result `x`. -/
def wrapInt (sz : IntSize) (x : Int) : Int :=
  (x + 2 ^ (sz.bits - 1)) % 2 ^ sz.bits - 2 ^ (sz.bits - 1)

/-- The value of the counter `nextId` after `k` executions of `m.nextId++`
starting from 1. -/
def counterAt (sz : IntSize) (k : Nat) : Int :=
  wrapInt sz (1 + (k : Int))

/-! ## The store -/

/-- An instant of `time.Time`, counted from the zero value `time.Time{}`. -/
abbrev Time := Int

/-- The struct `Todo` of `main.go`. -/
structure Todo where
  ID : Int
  Title : String
  Completed : Bool
  CreatedAt : Time
deriving DecidableEq, Repr

/-- The zero value `Todo{}`. -/
def Todo.zero : Todo :=
  { ID := 0, Title := "", Completed := false, CreatedAt := 0 }

/-- The struct `TodoManager` of `main.go`. -/
structure TodoManager where
  todos : List Todo
  nextId : Int
deriving DecidableEq, Repr

/-- `NewTodoManager()`: empty slice, counter at 1. -/
def NewTodoManager : TodoManager :=
  { todos := [], nextId := 1 }

/-- The read `todos[i]` of a slice element. Every index the methods read is in
range (see `rangeFind_lt`); out of range the value is immaterial. -/
def idx (todos : List Todo) (i : Nat) : Todo :=
  todos.getD i Todo.zero

/-- The scan shared by `GetByID`, `Update`, `Delete` and `ToggleCompleted`:
`for i, todo := range m.todos { if todo.ID == id { ... return } }`.
Returns the index `i` at which the loop body returns, or `none` when the loop
runs to the end of the slice. -/
def rangeFind (id : Int) : List Todo → Option Nat
  | [] => none
  | todo :: rest =>
    if todo.ID = id then some 0 else (rangeFind id rest).map (fun i => i + 1)

/-- `func (m *TodoManager) Add(title string) Todo`, with `now` the value of
`time.Now()`; `m.nextId++` is the wrapping increment of `int`. -/
def TodoManager.Add (sz : IntSize) (m : TodoManager) (title : String) (now : Time) :
    TodoManager × Todo :=
  let todo : Todo :=
    { ID := m.nextId, Title := title, Completed := false, CreatedAt := now }
  ({ todos := m.todos ++ [todo], nextId := wrapInt sz (m.nextId + 1) }, todo)

/-- `func (m *TodoManager) GetByID(id int) (Todo, bool)`. -/
def TodoManager.GetByID (m : TodoManager) (id : Int) : Todo × Bool :=
  match rangeFind id m.todos with
  | some i => (idx m.todos i, true)
  | none => (Todo.zero, false)

/-- `func (m *TodoManager) Update(id int, title string, completed bool) (Todo, bool)`:
the two field assignments to `m.todos[i]` are done one after the other. -/
def TodoManager.Update (m : TodoManager) (id : Int) (title : String)
    (completed : Bool) : TodoManager × Todo × Bool :=
  match rangeFind id m.todos with
  | some i =>
    let todos1 := m.todos.set i { idx m.todos i with Title := title }
    let todos2 := todos1.set i { idx todos1 i with Completed := completed }
    ({ todos := todos2, nextId := m.nextId }, idx todos2 i, true)
  | none => (m, Todo.zero, false)

/-- `func (m *TodoManager) Delete(id int) bool`:
`append(m.todos[:i], m.todos[i+1:]...)`. -/
def TodoManager.Delete (m : TodoManager) (id : Int) : TodoManager × Bool :=
  match rangeFind id m.todos with
  | some i =>
    ({ todos := m.todos.take i ++ m.todos.drop (i + 1), nextId := m.nextId }, true)
  | none => (m, false)

/-- `func (m *TodoManager) ToggleCompleted(id int) (Todo, bool)`. -/
def TodoManager.ToggleCompleted (m : TodoManager) (id : Int) :
    TodoManager × Todo × Bool :=
  match rangeFind id m.todos with
  | some i =>
    let todos1 :=
      m.todos.set i { idx m.todos i with Completed := !(idx m.todos i).Completed }
    ({ todos := todos1, nextId := m.nextId }, idx todos1 i, true)
  | none => (m, Todo.zero, false)

/-! ## Sequences of calls -/

/-- One call on the store, with its arguments (for `add`, also the clock
reading taken inside the call). -/
inductive Op where
  | add (title : String) (now : Time)
  | getAll
  | getByID (id : Int)
  | update (id : Int) (title : String) (completed : Bool)
  | delete (id : Int)
  | toggleCompleted (id : Int)
deriving DecidableEq, Repr

/-- Is the call an `Add`? -/
def Op.isAdd : Op → Bool
  | Op.add _ _ => true
  | _ => false

/-- The store after one call. -/
def step (sz : IntSize) (m : TodoManager) : Op → TodoManager
  | Op.add title now => (m.Add sz title now).1
  | Op.getAll => m
  | Op.getByID _ => m
  | Op.update id title completed => (m.Update id title completed).1
  | Op.delete id => (m.Delete id).1
  | Op.toggleCompleted id => (m.ToggleCompleted id).1

/-- The store after a sequence of calls, made in order. -/
def exec (sz : IntSize) (m : TodoManager) : List Op → TodoManager
  | [] => m
  | op :: ops => exec sz (step sz m op) ops

/-- The items returned by the `Add` calls of a sequence, in call order. -/
def addReturns (sz : IntSize) (m : TodoManager) : List Op → List Todo
  | [] => []
  | Op.add title now :: ops =>
    (m.Add sz title now).2 :: addReturns sz (m.Add sz title now).1 ops
  | op :: ops => addReturns sz (step sz m op) ops

/-- Bookkeeping for a store on which `Add` has run `n` times since
`NewTodoManager()`: the counter stands at `counterAt n`, and the items in the
slice are, in slice order, those issued by the `Add` calls number
`ks[0] < ks[1] < ...` (counted from 0), each below `n`. -/
def Issued (sz : IntSize) (m : TodoManager) (n : Nat) : Prop :=
  m.nextId = counterAt sz n ∧
    ∃ ks : List Nat, ks.Pairwise (fun a b => a < b) ∧ (∀ k ∈ ks, k < n) ∧
      m.todos.map Todo.ID = ks.map (counterAt sz)

/-- The calls of the scenario `Add("Buy milk")`, `Add("Walk dog")`,
`Delete(1)`, the clock reading 10 and then 20. -/
def scenarioOps : List Op :=
  [Op.add "Buy milk" 10, Op.add "Walk dog" 20, Op.delete 1]

/-- Calls that make the counter advance `n` times while the slice stays as it
is: `n` rounds of `Add("x")` followed by `Delete` of the ID that `Add` has just
issued, the counter standing at `counterAt k` before the first round. -/
def churnOps (sz : IntSize) : Nat → Nat → List Op
  | _, 0 => []
  | k, n + 1 =>
    Op.add "x" 0 :: Op.delete (counterAt sz k) :: churnOps sz (k + 1) n

/-- A run on a 32-bit target: `Add("keep")`, whose item stays in the store,
then `2^32 - 1` rounds of `Add` and `Delete` of the item just added. -/
def keepThenChurn : List Op :=
  Op.add "keep" 1 :: churnOps IntSize.bits32 1 (2 ^ 32 - 1)

/-- The store of the scenario `Add("Buy milk")`, `Add("Walk dog")` on a new
manager, the clock reading 10 and then 20. -/
def sampleStore : TodoManager :=
  { todos := [{ ID := 1, Title := "Buy milk", Completed := false, CreatedAt := 10 },
              { ID := 2, Title := "Walk dog", Completed := false, CreatedAt := 20 }],
    nextId := 3 }

/-- The branch `case "3"` of the loop in `main`, from the point where
`strconv.Atoi` has returned `id` without error. `titleLine` and `answerLine`
are the texts of the two lines the branch reads with `scanner.Scan()` once the
item is found; `toLower` stands for the library function `strings.ToLower`.
The result is the store after the branch and, when the branch gets as far as
calling `Update`, the two values `Update` returned (`none` when the branch
leaves through `continue` because `GetByID` reported not-found). -/
def mainCase3 (toLower : String → String) (m : TodoManager) (id : Int)
    (titleLine answerLine : String) : TodoManager × Option (Todo × Bool) :=
  match m.GetByID id with
  | (_, false) => (m, none)
  | (todo, true) =>
    let newTitle := if titleLine = "" then todo.Title else titleLine
    let completedStr := toLower answerLine
    let completed :=
      if completedStr = "y" then true
      else if completedStr = "n" then false
      else todo.Completed
    ((m.Update id newTitle completed).1,
      some ((m.Update id newTitle completed).2.1, (m.Update id newTitle completed).2.2))

/-! ## The scan -/

theorem rangeFind_none_iff (id : Int) (l : List Todo) :
    rangeFind id l = none ↔ ∀ t ∈ l, t.ID ≠ id := by
  induction l with
  | nil => simp [rangeFind]
  | cons a l ih =>
    by_cases h : a.ID = id
    · simp [rangeFind, h]
    · simp [rangeFind, h, ih]

theorem rangeFind_isSome_iff (id : Int) (l : List Todo) :
    (∃ i, rangeFind id l = some i) ↔ ∃ t ∈ l, t.ID = id := by
  constructor
  · rintro ⟨i, hi⟩
    by_contra hne
    have hnone : rangeFind id l = none :=
      (rangeFind_none_iff id l).2 (fun t ht h => hne ⟨t, ht, h⟩)
    rw [hnone] at hi
    cases hi
  · rintro ⟨t, ht, h⟩
    cases hr : rangeFind id l with
    | none => exact absurd h ((rangeFind_none_iff id l).1 hr t ht)
    | some i => exact ⟨i, rfl⟩

theorem idx_cons_succ (a : Todo) (l : List Todo) (i : Nat) :
    idx (a :: l) (i + 1) = idx l i := by
  simp [idx]

theorem idx_cons_zero (a : Todo) (l : List Todo) : idx (a :: l) 0 = a := by
  simp [idx]

theorem idx_eq_getElem (l : List Todo) (i : Nat) (h : i < l.length) :
    idx l i = l[i] := by
  simp [idx, List.getD_eq_getElem, h]

/-- What the scan returns: an index in range, holding the first item whose
`ID` is `id`. -/
theorem rangeFind_some (id : Int) (l : List Todo) (i : Nat)
    (h : rangeFind id l = some i) :
    i < l.length ∧ (idx l i).ID = id ∧ ∀ j, j < i → (idx l j).ID ≠ id := by
  induction l generalizing i with
  | nil => simp [rangeFind] at h
  | cons a l ih =>
    by_cases ha : a.ID = id
    · simp [rangeFind, ha] at h
      subst h
      simp [idx_cons_zero, ha]
    · simp [rangeFind, ha] at h
      obtain ⟨k, hk, rfl⟩ := h
      obtain ⟨h1, h2, h3⟩ := ih k hk
      refine ⟨by simpa using h1, by simpa [idx_cons_succ] using h2, ?_⟩
      intro j hj
      cases j with
      | zero => simpa [idx_cons_zero] using ha
      | succ j =>
        rw [idx_cons_succ]
        exact h3 j (by omega)

theorem rangeFind_lt (id : Int) (l : List Todo) (i : Nat)
    (h : rangeFind id l = some i) : i < l.length :=
  (rangeFind_some id l i h).1

/-! ## Wrapping arithmetic of the counter -/

theorem wrapInt_succ (sz : IntSize) (x : Int) :
    wrapInt sz (wrapInt sz x + 1) = wrapInt sz (x + 1) := by
  cases sz <;> simp only [wrapInt, IntSize.bits] <;> omega

theorem counterAt_succ (sz : IntSize) (k : Nat) :
    wrapInt sz (counterAt sz k + 1) = counterAt sz (k + 1) := by
  have e : (1 : Int) + ((k + 1 : Nat) : Int) = 1 + (k : Int) + 1 := by
    push_cast
    ring
  rw [counterAt, wrapInt_succ, counterAt, e]

theorem counterAt_zero (sz : IntSize) : counterAt sz 0 = 1 := by
  cases sz <;> decide

/-- Below the largest `int` the counter has not wrapped. -/
theorem counterAt_of_lt (sz : IntSize) (k : Nat) (h : (k : Int) < maxInt sz) :
    counterAt sz k = (k : Int) + 1 := by
  cases sz <;> simp only [counterAt, wrapInt, IntSize.bits, maxInt] at * <;> omega

/-- Two counter values fewer than `2^bits` increments apart differ. -/
theorem counterAt_ne (sz : IntSize) (k1 k2 : Nat) (h : k1 < k2)
    (h2 : k2 < k1 + 2 ^ sz.bits) : counterAt sz k1 ≠ counterAt sz k2 := by
  cases sz <;> simp only [counterAt, wrapInt, IntSize.bits] at * <;> omega

/-! ## The counter -/

theorem Update_nextId (m : TodoManager) (id : Int) (title : String) (c : Bool) :
    (m.Update id title c).1.nextId = m.nextId := by
  unfold TodoManager.Update
  cases rangeFind id m.todos <;> rfl

theorem Delete_nextId (m : TodoManager) (id : Int) :
    (m.Delete id).1.nextId = m.nextId := by
  unfold TodoManager.Delete
  cases rangeFind id m.todos <;> rfl

theorem ToggleCompleted_nextId (m : TodoManager) (id : Int) :
    (m.ToggleCompleted id).1.nextId = m.nextId := by
  unfold TodoManager.ToggleCompleted
  cases rangeFind id m.todos <;> rfl

theorem step_nextId (sz : IntSize) (m : TodoManager) (op : Op) :
    (step sz m op).nextId
      = if op.isAdd then wrapInt sz (m.nextId + 1) else m.nextId := by
  cases op <;>
    simp [step, Op.isAdd, TodoManager.Add, Update_nextId, Delete_nextId,
      ToggleCompleted_nextId]

theorem step_nextId_counterAt (sz : IntSize) (m : TodoManager) (op : Op) (n : Nat)
    (h : m.nextId = counterAt sz n) :
    (step sz m op).nextId = counterAt sz (n + (if op.isAdd then 1 else 0)) := by
  rw [step_nextId, h]
  by_cases ha : op.isAdd = true
  · simp [ha, counterAt_succ]
  · simp [ha]

/-- The IDs returned by the `Add` calls of a sequence are the successive
values of the counter. -/
theorem addReturns_ids (sz : IntSize) (m : TodoManager) (ops : List Op) (n : Nat)
    (h : m.nextId = counterAt sz n) :
    (addReturns sz m ops).map Todo.ID
      = (List.range (ops.countP Op.isAdd)).map (fun (j : Nat) => counterAt sz (n + j)) := by
  induction ops generalizing m n with
  | nil => simp [addReturns]
  | cons op ops ih =>
    have hstep := step_nextId_counterAt sz m op n h
    cases op with
    | add title now =>
      have hc : (Op.add title now :: ops).countP Op.isAdd
          = ops.countP Op.isAdd + 1 := by
        simp [List.countP_cons, Op.isAdd]
      have hnext : (m.Add sz title now).1.nextId = counterAt sz (n + 1) := by
        simpa [step, Op.isAdd] using hstep
      rw [addReturns, hc, List.range_succ_eq_map, List.map_cons, ih _ _ hnext]
      simp only [List.map_cons, List.map_map, TodoManager.Add]
      refine congrArg₂ List.cons (by simpa using h) ?_
      apply List.map_congr_left
      intro j _
      simp only [Function.comp, Nat.succ_eq_add_one]
      rw [Nat.add_assoc, Nat.add_comm 1 j]
    | getAll => simpa [addReturns, step, Op.isAdd] using ih m n h
    | getByID id => simpa [addReturns, step, Op.isAdd] using ih m n h
    | update id title c =>
      simpa [addReturns, step, Op.isAdd] using
        ih (m.Update id title c).1 n (by rw [Update_nextId]; exact h)
    | delete id =>
      simpa [addReturns, step, Op.isAdd] using
        ih (m.Delete id).1 n (by rw [Delete_nextId]; exact h)
    | toggleCompleted id =>
      simpa [addReturns, step, Op.isAdd] using
        ih (m.ToggleCompleted id).1 n (by rw [ToggleCompleted_nextId]; exact h)

/-! ## What each method does once the scan has returned -/

theorem idx_getElem? (l : List Todo) (i : Nat) (h : i < l.length) :
    l[i]? = some (idx l i) := by
  rw [idx_eq_getElem l i h, List.getElem?_eq_getElem h]

theorem idx_set_self (l : List Todo) (i : Nat) (x : Todo) (h : i < l.length) :
    idx (l.set i x) i = x := by
  have h2 : i < (l.set i x).length := by simpa using h
  rw [idx_eq_getElem _ i h2, List.getElem_set_self]

theorem GetByID_some (m : TodoManager) (id : Int) (i : Nat)
    (h : rangeFind id m.todos = some i) :
    m.GetByID id = (idx m.todos i, true) := by
  simp [TodoManager.GetByID, h]

theorem GetByID_none (m : TodoManager) (id : Int)
    (h : rangeFind id m.todos = none) :
    m.GetByID id = (Todo.zero, false) := by
  simp [TodoManager.GetByID, h]

theorem Update_some (m : TodoManager) (id : Int) (title : String) (c : Bool)
    (i : Nat) (h : rangeFind id m.todos = some i) :
    m.Update id title c =
      ({ todos := m.todos.set i { idx m.todos i with Title := title, Completed := c },
         nextId := m.nextId },
       { idx m.todos i with Title := title, Completed := c }, true) := by
  have hi := rangeFind_lt id m.todos i h
  have hi1 : i < (m.todos.set i { idx m.todos i with Title := title }).length := by
    simpa using hi
  simp only [TodoManager.Update, h]
  rw [idx_set_self _ _ _ hi1, idx_set_self _ _ _ hi, List.set_set]

theorem Update_none (m : TodoManager) (id : Int) (title : String) (c : Bool)
    (h : rangeFind id m.todos = none) :
    m.Update id title c = (m, Todo.zero, false) := by
  simp [TodoManager.Update, h]

theorem Delete_some (m : TodoManager) (id : Int) (i : Nat)
    (h : rangeFind id m.todos = some i) :
    m.Delete id = ({ todos := m.todos.eraseIdx i, nextId := m.nextId }, true) := by
  simp [TodoManager.Delete, h, List.eraseIdx_eq_take_drop_succ]

theorem Delete_none (m : TodoManager) (id : Int)
    (h : rangeFind id m.todos = none) : m.Delete id = (m, false) := by
  simp [TodoManager.Delete, h]

theorem ToggleCompleted_some (m : TodoManager) (id : Int) (i : Nat)
    (h : rangeFind id m.todos = some i) :
    m.ToggleCompleted id =
      ({ todos := m.todos.set i
            { idx m.todos i with Completed := !(idx m.todos i).Completed },
         nextId := m.nextId },
       { idx m.todos i with Completed := !(idx m.todos i).Completed }, true) := by
  have hi := rangeFind_lt id m.todos i h
  simp only [TodoManager.ToggleCompleted, h]
  rw [idx_set_self _ _ _ hi]

theorem ToggleCompleted_none (m : TodoManager) (id : Int)
    (h : rangeFind id m.todos = none) :
    m.ToggleCompleted id = (m, Todo.zero, false) := by
  simp [TodoManager.ToggleCompleted, h]

/-- Overwriting slot `i` with an item of the same `ID` keeps the list of IDs. -/
theorem map_ID_set (l : List Todo) (i : Nat) (x : Todo) (h : i < l.length)
    (hx : x.ID = (idx l i).ID) : (l.set i x).map Todo.ID = l.map Todo.ID := by
  apply List.ext_getElem?
  intro n
  rw [List.map_set, List.getElem?_set]
  by_cases hn : i = n
  · subst hn
    simp [h, hx, idx_eq_getElem l i h]
  · simp [hn]

theorem Update_ids (m : TodoManager) (id : Int) (title : String) (c : Bool) :
    (m.Update id title c).1.todos.map Todo.ID = m.todos.map Todo.ID := by
  cases h : rangeFind id m.todos with
  | none => rw [Update_none m id title c h]
  | some i =>
    rw [Update_some m id title c i h]
    exact map_ID_set _ _ _ (rangeFind_lt id m.todos i h) rfl

theorem ToggleCompleted_ids (m : TodoManager) (id : Int) :
    (m.ToggleCompleted id).1.todos.map Todo.ID = m.todos.map Todo.ID := by
  cases h : rangeFind id m.todos with
  | none => rw [ToggleCompleted_none m id h]
  | some i =>
    rw [ToggleCompleted_some m id i h]
    exact map_ID_set _ _ _ (rangeFind_lt id m.todos i h) rfl

theorem rangeFind_append_singleton (id : Int) (l : List Todo) (t : Todo)
    (hl : ∀ x ∈ l, x.ID ≠ id) (ht : t.ID = id) :
    rangeFind id (l ++ [t]) = some l.length := by
  induction l with
  | nil => simp [rangeFind, ht]
  | cons a l ih =>
    have ha : a.ID ≠ id := hl a (by simp)
    have := ih (fun x hx => hl x (by simp [hx]))
    simp [rangeFind, ha, this]

theorem idx_append_length (l : List Todo) (t : Todo) :
    idx (l ++ [t]) l.length = t := by
  simp [idx, List.getD_eq_getElem?_getD]

/-! ## Delete -/

theorem rangeFind_eraseIdx_eq_eraseP (id : Int) (l : List Todo) (i : Nat)
    (h : rangeFind id l = some i) :
    l.eraseIdx i = l.eraseP (fun t => decide (t.ID = id)) := by
  induction l generalizing i with
  | nil => simp [rangeFind] at h
  | cons a l ih =>
    by_cases ha : a.ID = id
    · simp [rangeFind, ha] at h
      subst h
      simp [List.eraseP_cons, ha]
    · simp [rangeFind, ha] at h
      obtain ⟨k, hk, rfl⟩ := h
      simp [List.eraseP_cons, ha, ih k hk]

/-- The first-match facts of the scan, read with the library lookup `l[i]?`. -/
theorem rangeFind_first (id : Int) (l : List Todo) (i : Nat)
    (h : rangeFind id l = some i) :
    (∃ t, l[i]? = some t ∧ t.ID = id) ∧
      ∀ (j : Nat) (t : Todo), j < i → l[j]? = some t → t.ID ≠ id := by
  obtain ⟨h1, h2, h3⟩ := rangeFind_some id l i h
  refine ⟨⟨idx l i, idx_getElem? l i h1, h2⟩, ?_⟩
  intro j t hj hjt
  have hjl : j < l.length := by omega
  rw [idx_getElem? l j hjl] at hjt
  cases hjt
  exact h3 j hj

/-- C4: when some item of the store has the given `id`, `Delete(id)` returns
true, leaves `nextId` alone, and the new slice is the old one with exactly the
first item of that `id` taken out: one item fewer, the items before the
removed position stay where they were, the items after it move up by one
position, each unchanged in all its fields. -/
theorem C4_delete_present_removes_first (m : TodoManager) (id : Int)
    (h : ∃ t ∈ m.todos, t.ID = id) :
    (m.Delete id).2 = true ∧
    (m.Delete id).1.nextId = m.nextId ∧
    (m.Delete id).1.todos = m.todos.eraseP (fun t => decide (t.ID = id)) ∧
    (m.Delete id).1.todos.length + 1 = m.todos.length ∧
    List.Sublist (m.Delete id).1.todos m.todos ∧
    ∃ i, i < m.todos.length ∧
      (∃ t, m.todos[i]? = some t ∧ t.ID = id) ∧
      (∀ (j : Nat) (t : Todo), j < i → m.todos[j]? = some t → t.ID ≠ id) ∧
      (∀ j, j < i → (m.Delete id).1.todos[j]? = m.todos[j]?) ∧
      (∀ j, i ≤ j → (m.Delete id).1.todos[j]? = m.todos[j + 1]?) := by
  obtain ⟨i, hi⟩ := (rangeFind_isSome_iff id m.todos).2 h
  have hlt := rangeFind_lt id m.todos i hi
  obtain ⟨hf1, hf2⟩ := rangeFind_first id m.todos i hi
  rw [Delete_some m id i hi]
  refine ⟨rfl, rfl, rangeFind_eraseIdx_eq_eraseP id m.todos i hi, ?_,
    List.eraseIdx_sublist _ _, i, hlt, hf1, hf2, ?_, ?_⟩
  · simp only [List.length_eraseIdx, hlt, if_true]
    omega
  · intro j hj
    simp [List.getElem?_eraseIdx, hj]
  · intro j hj
    have : ¬ j < i := by omega
    simp [List.getElem?_eraseIdx, this]

/-- Instance: `Delete(1)` on the sample store. -/
theorem C4_delete_present_removes_first_witness :
    (∃ t ∈ sampleStore.todos, t.ID = 1) ∧
    (sampleStore.Delete 1).2 = true ∧
    (sampleStore.Delete 1).1.nextId = sampleStore.nextId ∧
    (sampleStore.Delete 1).1.todos
      = sampleStore.todos.eraseP (fun t => decide (t.ID = 1)) ∧
    (sampleStore.Delete 1).1.todos.length + 1 = sampleStore.todos.length ∧
    List.Sublist (sampleStore.Delete 1).1.todos sampleStore.todos ∧
    ∃ i, i < sampleStore.todos.length ∧
      (∃ t, sampleStore.todos[i]? = some t ∧ t.ID = 1) ∧
      (∀ (j : Nat) (t : Todo), j < i → sampleStore.todos[j]? = some t → t.ID ≠ 1) ∧
      (∀ j, j < i → (sampleStore.Delete 1).1.todos[j]? = sampleStore.todos[j]?) ∧
      (∀ j, i ≤ j →
        (sampleStore.Delete 1).1.todos[j]? = sampleStore.todos[j + 1]?) :=
  ⟨⟨{ ID := 1, Title := "Buy milk", Completed := false, CreatedAt := 10 },
      by simp [sampleStore], rfl⟩,
    C4_delete_present_removes_first sampleStore 1
      ⟨{ ID := 1, Title := "Buy milk", Completed := false, CreatedAt := 10 },
        by simp [sampleStore], rfl⟩⟩

/-! ## Update -/

/-- C5: when no item of the store has the given `id`, `Update(id, title,
completed)` returns the zero `Todo` with false and the store is exactly as
before (same slice, same `nextId`). -/
theorem C5_update_absent_is_noop (m : TodoManager) (id : Int) (title : String)
    (completed : Bool) (h : ∀ t ∈ m.todos, t.ID ≠ id) :
    m.Update id title completed = (m, Todo.zero, false) :=
  Update_none m id title completed ((rangeFind_none_iff id m.todos).2 h)

/-- Instance: `Update(7, ..)` on the sample store, which holds no ID 7. -/
theorem C5_update_absent_is_noop_witness :
    (∀ t ∈ sampleStore.todos, t.ID ≠ 7) ∧
    sampleStore.Update 7 "Walk the dog" true = (sampleStore, Todo.zero, false) :=
  ⟨by simp [sampleStore],
    C5_update_absent_is_noop sampleStore 7 "Walk the dog" true (by simp [sampleStore])⟩

/-- C6: when some item of the store has the given `id`, `Update(id, title,
completed)` reports found; at the position of the first item with that `id`
the store now holds the returned item, whose `Title` and `Completed` are the
arguments and whose `ID` and `CreatedAt` are those of the item that was there;
the slice keeps its length, every other position is unchanged, and `nextId`
is unchanged. -/
theorem C6_update_present_in_place (m : TodoManager) (id : Int) (title : String)
    (completed : Bool) (h : ∃ t ∈ m.todos, t.ID = id) :
    ∃ (i : Nat) (old : Todo),
      m.todos[i]? = some old ∧ old.ID = id ∧
      (∀ (j : Nat) (t : Todo), j < i → m.todos[j]? = some t → t.ID ≠ id) ∧
      (m.Update id title completed).2.2 = true ∧
      (m.Update id title completed).1.todos[i]?
        = some (m.Update id title completed).2.1 ∧
      (m.Update id title completed).2.1.Title = title ∧
      (m.Update id title completed).2.1.Completed = completed ∧
      (m.Update id title completed).2.1.ID = old.ID ∧
      (m.Update id title completed).2.1.CreatedAt = old.CreatedAt ∧
      (m.Update id title completed).1.todos.length = m.todos.length ∧
      (∀ j, j ≠ i → (m.Update id title completed).1.todos[j]? = m.todos[j]?) ∧
      (m.Update id title completed).1.nextId = m.nextId := by
  obtain ⟨i, hi⟩ := (rangeFind_isSome_iff id m.todos).2 h
  have hlt := rangeFind_lt id m.todos i hi
  obtain ⟨_, hid, _⟩ := rangeFind_some id m.todos i hi
  obtain ⟨_, hf2⟩ := rangeFind_first id m.todos i hi
  rw [Update_some m id title completed i hi]
  refine ⟨i, idx m.todos i, idx_getElem? m.todos i hlt, hid, hf2, rfl, ?_, rfl, rfl,
    rfl, rfl, ?_, ?_, rfl⟩
  · simp [List.getElem?_set, hlt]
  · simp
  · intro j hj
    simp [List.getElem?_set, Ne.symm hj]

/-- Instance: `Update(2, "Walk the dog", true)` on the sample store. -/
theorem C6_update_present_in_place_witness :
    (∃ t ∈ sampleStore.todos, t.ID = 2) ∧
    ∃ (i : Nat) (old : Todo),
      sampleStore.todos[i]? = some old ∧ old.ID = 2 ∧
      (∀ (j : Nat) (t : Todo), j < i → sampleStore.todos[j]? = some t → t.ID ≠ 2) ∧
      (sampleStore.Update 2 "Walk the dog" true).2.2 = true ∧
      (sampleStore.Update 2 "Walk the dog" true).1.todos[i]?
        = some (sampleStore.Update 2 "Walk the dog" true).2.1 ∧
      (sampleStore.Update 2 "Walk the dog" true).2.1.Title = "Walk the dog" ∧
      (sampleStore.Update 2 "Walk the dog" true).2.1.Completed = true ∧
      (sampleStore.Update 2 "Walk the dog" true).2.1.ID = old.ID ∧
      (sampleStore.Update 2 "Walk the dog" true).2.1.CreatedAt = old.CreatedAt ∧
      (sampleStore.Update 2 "Walk the dog" true).1.todos.length
        = sampleStore.todos.length ∧
      (∀ j, j ≠ i →
        (sampleStore.Update 2 "Walk the dog" true).1.todos[j]?
          = sampleStore.todos[j]?) ∧
      (sampleStore.Update 2 "Walk the dog" true).1.nextId = sampleStore.nextId :=
  ⟨⟨{ ID := 2, Title := "Walk dog", Completed := false, CreatedAt := 20 },
      by simp [sampleStore], rfl⟩,
    C6_update_present_in_place sampleStore 2 "Walk the dog" true
      ⟨{ ID := 2, Title := "Walk dog", Completed := false, CreatedAt := 20 },
        by simp [sampleStore], rfl⟩⟩

/-! ## ToggleCompleted -/

/-- Overwriting slot `i` with an item of the same `ID` does not move any scan. -/
theorem rangeFind_set (id : Int) (l : List Todo) (i : Nat) (x : Todo)
    (h : i < l.length) (hx : x.ID = (idx l i).ID) :
    rangeFind id (l.set i x) = rangeFind id l := by
  induction l generalizing i with
  | nil => simp at h
  | cons a l ih =>
    cases i with
    | zero =>
      rw [idx_cons_zero] at hx
      simp [rangeFind, hx]
    | succ k =>
      rw [idx_cons_succ] at hx
      have hk : k < l.length := by simpa using h
      simp [rangeFind, ih k hk hx]

theorem set_idx_self (l : List Todo) (i : Nat) (h : i < l.length) :
    l.set i (idx l i) = l := by
  apply List.ext_getElem?
  intro n
  rw [List.getElem?_set]
  by_cases hn : i = n
  · subst hn
    simp [h, idx_getElem? l i h]
  · simp [hn]

theorem rangeFind_find? (id : Int) (l : List Todo) (i : Nat)
    (h : rangeFind id l = some i) :
    l.find? (fun t => decide (t.ID = id)) = some (idx l i) := by
  induction l generalizing i with
  | nil => simp [rangeFind] at h
  | cons a l ih =>
    by_cases ha : a.ID = id
    · simp [rangeFind, ha] at h
      subst h
      simp [List.find?_cons, ha, idx_cons_zero]
    · simp [rangeFind, ha] at h
      obtain ⟨k, hk, rfl⟩ := h
      simp [List.find?_cons, ha, idx_cons_succ, ih k hk]

/-- C7: when some item of the store has the given `id`, two `ToggleCompleted(id)`
calls in a row both report found and the store after the second is the
original store; the item returned by the second call is the original first item
of that `id` (so it carries the original `Completed`), the item returned by the
first call carrying the negated value. -/
theorem C7_toggle_twice_restores (m : TodoManager) (id : Int)
    (h : ∃ t ∈ m.todos, t.ID = id) :
    (m.ToggleCompleted id).2.2 = true ∧
    ((m.ToggleCompleted id).1.ToggleCompleted id).2.2 = true ∧
    ((m.ToggleCompleted id).1.ToggleCompleted id).1 = m ∧
    ∃ old : Todo,
      m.todos.find? (fun t => decide (t.ID = id)) = some old ∧
      (m.ToggleCompleted id).2.1.Completed = !old.Completed ∧
      ((m.ToggleCompleted id).1.ToggleCompleted id).2.1 = old ∧
      ((m.ToggleCompleted id).1.ToggleCompleted id).2.1.Completed = old.Completed := by
  obtain ⟨i, hi⟩ := (rangeFind_isSome_iff id m.todos).2 h
  have hlt := rangeFind_lt id m.todos i hi
  have h1 := ToggleCompleted_some m id i hi
  have hi2 : rangeFind id (m.ToggleCompleted id).1.todos = some i := by
    rw [h1]
    exact (rangeFind_set id m.todos i
      { idx m.todos i with Completed := !(idx m.todos i).Completed } hlt rfl).trans hi
  have h2 := ToggleCompleted_some (m.ToggleCompleted id).1 id i hi2
  have hidx : idx (m.ToggleCompleted id).1.todos i
      = { idx m.todos i with Completed := !(idx m.todos i).Completed } := by
    rw [h1]
    exact idx_set_self _ _ _ hlt
  have hback : ({ idx (m.ToggleCompleted id).1.todos i with
        Completed := !(idx (m.ToggleCompleted id).1.todos i).Completed } : Todo)
      = idx m.todos i := by
    rw [hidx]
    simp
  rw [hback] at h2
  have hstore : ((m.ToggleCompleted id).1.ToggleCompleted id).1 = m := by
    rw [h2]
    simp only
    rw [h1]
    simp only
    rw [List.set_set, set_idx_self m.todos i hlt]
  refine ⟨by rw [h1], by rw [h2], hstore, idx m.todos i,
    rangeFind_find? id m.todos i hi, by rw [h1], by rw [h2], by rw [h2]⟩

/-- Instance: `ToggleCompleted(2)` twice on the sample store. -/
theorem C7_toggle_twice_restores_witness :
    (∃ t ∈ sampleStore.todos, t.ID = 2) ∧
    (sampleStore.ToggleCompleted 2).2.2 = true ∧
    ((sampleStore.ToggleCompleted 2).1.ToggleCompleted 2).2.2 = true ∧
    ((sampleStore.ToggleCompleted 2).1.ToggleCompleted 2).1 = sampleStore ∧
    ∃ old : Todo,
      sampleStore.todos.find? (fun t => decide (t.ID = 2)) = some old ∧
      (sampleStore.ToggleCompleted 2).2.1.Completed = !old.Completed ∧
      ((sampleStore.ToggleCompleted 2).1.ToggleCompleted 2).2.1 = old ∧
      ((sampleStore.ToggleCompleted 2).1.ToggleCompleted 2).2.1.Completed
        = old.Completed :=
  ⟨⟨{ ID := 2, Title := "Walk dog", Completed := false, CreatedAt := 20 },
      by simp [sampleStore], rfl⟩,
    C7_toggle_twice_restores sampleStore 2
      ⟨{ ID := 2, Title := "Walk dog", Completed := false, CreatedAt := 20 },
        by simp [sampleStore], rfl⟩⟩

/-- C8: when some item of the store has the given `id`, `ToggleCompleted(id)`
reports found; at the position of the first item with that `id` the store now
holds the returned item, whose `Completed` is the negation of the previous
value and whose `ID`, `Title` and `CreatedAt` are unchanged; every other
position, the length of the slice and `nextId` are unchanged. -/
theorem C8_toggle_present_flips_one (m : TodoManager) (id : Int)
    (h : ∃ t ∈ m.todos, t.ID = id) :
    ∃ (i : Nat) (old : Todo),
      m.todos[i]? = some old ∧ old.ID = id ∧
      (∀ (j : Nat) (t : Todo), j < i → m.todos[j]? = some t → t.ID ≠ id) ∧
      (m.ToggleCompleted id).2.2 = true ∧
      (m.ToggleCompleted id).1.todos[i]? = some (m.ToggleCompleted id).2.1 ∧
      (m.ToggleCompleted id).2.1.Completed = !old.Completed ∧
      (m.ToggleCompleted id).2.1.ID = old.ID ∧
      (m.ToggleCompleted id).2.1.Title = old.Title ∧
      (m.ToggleCompleted id).2.1.CreatedAt = old.CreatedAt ∧
      (m.ToggleCompleted id).1.todos.length = m.todos.length ∧
      (∀ j, j ≠ i → (m.ToggleCompleted id).1.todos[j]? = m.todos[j]?) ∧
      (m.ToggleCompleted id).1.nextId = m.nextId := by
  obtain ⟨i, hi⟩ := (rangeFind_isSome_iff id m.todos).2 h
  have hlt := rangeFind_lt id m.todos i hi
  obtain ⟨_, hid, _⟩ := rangeFind_some id m.todos i hi
  obtain ⟨_, hf2⟩ := rangeFind_first id m.todos i hi
  rw [ToggleCompleted_some m id i hi]
  refine ⟨i, idx m.todos i, idx_getElem? m.todos i hlt, hid, hf2, rfl, ?_, rfl, rfl,
    rfl, rfl, ?_, ?_, rfl⟩
  · simp [List.getElem?_set, hlt]
  · simp
  · intro j hj
    simp [List.getElem?_set, Ne.symm hj]

/-- Instance: `ToggleCompleted(1)` on the sample store. -/
theorem C8_toggle_present_flips_one_witness :
    (∃ t ∈ sampleStore.todos, t.ID = 1) ∧
    ∃ (i : Nat) (old : Todo),
      sampleStore.todos[i]? = some old ∧ old.ID = 1 ∧
      (∀ (j : Nat) (t : Todo), j < i → sampleStore.todos[j]? = some t → t.ID ≠ 1) ∧
      (sampleStore.ToggleCompleted 1).2.2 = true ∧
      (sampleStore.ToggleCompleted 1).1.todos[i]?
        = some (sampleStore.ToggleCompleted 1).2.1 ∧
      (sampleStore.ToggleCompleted 1).2.1.Completed = !old.Completed ∧
      (sampleStore.ToggleCompleted 1).2.1.ID = old.ID ∧
      (sampleStore.ToggleCompleted 1).2.1.Title = old.Title ∧
      (sampleStore.ToggleCompleted 1).2.1.CreatedAt = old.CreatedAt ∧
      (sampleStore.ToggleCompleted 1).1.todos.length = sampleStore.todos.length ∧
      (∀ j, j ≠ i →
        (sampleStore.ToggleCompleted 1).1.todos[j]? = sampleStore.todos[j]?) ∧
      (sampleStore.ToggleCompleted 1).1.nextId = sampleStore.nextId :=
  ⟨⟨{ ID := 1, Title := "Buy milk", Completed := false, CreatedAt := 10 },
      by simp [sampleStore], rfl⟩,
    C8_toggle_present_flips_one sampleStore 1
      ⟨{ ID := 1, Title := "Buy milk", Completed := false, CreatedAt := 10 },
        by simp [sampleStore], rfl⟩⟩

/-! ## Found and not-found -/

theorem GetByID_found_iff (m : TodoManager) (id : Int) :
    (m.GetByID id).2 = true ↔ ∃ t ∈ m.todos, t.ID = id := by
  rw [← rangeFind_isSome_iff]
  cases h : rangeFind id m.todos with
  | none => simp [GetByID_none m id h]
  | some i => simp [GetByID_some m id i h]

theorem Update_found_iff (m : TodoManager) (id : Int) (title : String) (c : Bool) :
    (m.Update id title c).2.2 = true ↔ ∃ t ∈ m.todos, t.ID = id := by
  rw [← rangeFind_isSome_iff]
  cases h : rangeFind id m.todos with
  | none => simp [Update_none m id title c h]
  | some i => simp [Update_some m id title c i h]

theorem Delete_found_iff (m : TodoManager) (id : Int) :
    (m.Delete id).2 = true ↔ ∃ t ∈ m.todos, t.ID = id := by
  rw [← rangeFind_isSome_iff]
  cases h : rangeFind id m.todos with
  | none => simp [Delete_none m id h]
  | some i => simp [Delete_some m id i h]

theorem ToggleCompleted_found_iff (m : TodoManager) (id : Int) :
    (m.ToggleCompleted id).2.2 = true ↔ ∃ t ∈ m.todos, t.ID = id := by
  rw [← rangeFind_isSome_iff]
  cases h : rangeFind id m.todos with
  | none => simp [ToggleCompleted_none m id h]
  | some i => simp [ToggleCompleted_some m id i h]

theorem false_iff_of_true_iff (b : Bool) (p : Prop) (h : b = true ↔ p) :
    b = false ↔ ¬ p := by
  cases b <;> simp_all

/-- C11: on every store and for every integer `id`, each of `GetByID(id)`,
`Update(id, ..)`, `Delete(id)` and `ToggleCompleted(id)` returns true exactly
when some item of the store has that `ID`, and false exactly when none has;
the boolean is the whole outcome report of these total functions. -/
theorem C11_found_iff_id_present (m : TodoManager) (id : Int) (title : String)
    (completed : Bool) :
    (((m.GetByID id).2 = true ↔ ∃ t ∈ m.todos, t.ID = id) ∧
      ((m.Update id title completed).2.2 = true ↔ ∃ t ∈ m.todos, t.ID = id) ∧
      ((m.Delete id).2 = true ↔ ∃ t ∈ m.todos, t.ID = id) ∧
      ((m.ToggleCompleted id).2.2 = true ↔ ∃ t ∈ m.todos, t.ID = id)) ∧
    (((m.GetByID id).2 = false ↔ ¬ ∃ t ∈ m.todos, t.ID = id) ∧
      ((m.Update id title completed).2.2 = false ↔ ¬ ∃ t ∈ m.todos, t.ID = id) ∧
      ((m.Delete id).2 = false ↔ ¬ ∃ t ∈ m.todos, t.ID = id) ∧
      ((m.ToggleCompleted id).2.2 = false ↔ ¬ ∃ t ∈ m.todos, t.ID = id)) :=
  ⟨⟨GetByID_found_iff m id, Update_found_iff m id title completed,
      Delete_found_iff m id, ToggleCompleted_found_iff m id⟩,
    ⟨false_iff_of_true_iff _ _ (GetByID_found_iff m id),
      false_iff_of_true_iff _ _ (Update_found_iff m id title completed),
      false_iff_of_true_iff _ _ (Delete_found_iff m id),
      false_iff_of_true_iff _ _ (ToggleCompleted_found_iff m id)⟩⟩

/-! ## The IDs left by `Delete` -/

theorem rangeFind_none_find? (id : Int) (l : List Todo)
    (h : rangeFind id l = none) :
    l.find? (fun t => decide (t.ID = id)) = none := by
  rw [List.find?_eq_none]
  intro t ht
  simpa using (rangeFind_none_iff id l).1 h t ht

/-- C14: `GetByID(id)` leaves the store as it is; it returns the first item
in slice order whose `ID` is `id`, with true, when there is one, and the zero
`Todo`, with false, when there is none. -/
theorem C14_getByID_first_match (sz : IntSize) (m : TodoManager) (id : Int) :
    step sz m (Op.getByID id) = m ∧
    m.GetByID id =
      (match m.todos.find? (fun t => decide (t.ID = id)) with
        | some t => (t, true)
        | none => (Todo.zero, false)) := by
  refine ⟨rfl, ?_⟩
  cases h : rangeFind id m.todos with
  | none => rw [GetByID_none m id h, rangeFind_none_find? id m.todos h]
  | some i => rw [GetByID_some m id i h, rangeFind_find? id m.todos i h]

/-! ## Delete and ToggleCompleted on an absent id -/

/-- C15: when no item of the store has the given `id`, `Delete(id)` returns
false and `ToggleCompleted(id)` returns the zero `Todo` with false, and each
leaves the store exactly as it was (same slice, same `nextId`). -/
theorem C15_delete_toggle_absent_noop (m : TodoManager) (id : Int)
    (h : ∀ t ∈ m.todos, t.ID ≠ id) :
    m.Delete id = (m, false) ∧ m.ToggleCompleted id = (m, Todo.zero, false) :=
  ⟨Delete_none m id ((rangeFind_none_iff id m.todos).2 h),
    ToggleCompleted_none m id ((rangeFind_none_iff id m.todos).2 h)⟩

/-- Instance: `Delete(7)` and `ToggleCompleted(7)` on the sample store, which
holds no ID 7. -/
theorem C15_delete_toggle_absent_noop_witness :
    (∀ t ∈ sampleStore.todos, t.ID ≠ 7) ∧
    sampleStore.Delete 7 = (sampleStore, false) ∧
    sampleStore.ToggleCompleted 7 = (sampleStore, Todo.zero, false) :=
  ⟨by simp [sampleStore],
    C15_delete_toggle_absent_noop sampleStore 7 (by simp [sampleStore])⟩

/-! ## The update branch of the menu loop -/

/-- The branch with the scan result made explicit. -/
theorem mainCase3_some (toLower : String → String) (m : TodoManager) (id : Int)
    (titleLine answerLine : String) (i : Nat) (h : rangeFind id m.todos = some i) :
    mainCase3 toLower m id titleLine answerLine =
      ((m.Update id (if titleLine = "" then (idx m.todos i).Title else titleLine)
          (if toLower answerLine = "y" then true
            else if toLower answerLine = "n" then false
            else (idx m.todos i).Completed)).1,
        some ((m.Update id (if titleLine = "" then (idx m.todos i).Title else titleLine)
            (if toLower answerLine = "y" then true
              else if toLower answerLine = "n" then false
              else (idx m.todos i).Completed)).2.1,
          (m.Update id (if titleLine = "" then (idx m.todos i).Title else titleLine)
            (if toLower answerLine = "y" then true
              else if toLower answerLine = "n" then false
              else (idx m.todos i).Completed)).2.2)) := by
  unfold mainCase3
  rw [GetByID_some m id i h]

/-- C16: in the update branch of the menu loop, for an `id` some item of the
store has: the `Update` call of the branch reports found, and the item it
returns, which the store then holds at the position of the first item with
that `id`, has the previous `Title` when the entered title is empty and the
entered text otherwise, and has `Completed` true when the lower-cased answer is
"y", false when it is "n", and the previous value for any other answer. -/
theorem C16_main_update_branch (toLower : String → String) (m : TodoManager)
    (id : Int) (titleLine answerLine : String) (h : ∃ t ∈ m.todos, t.ID = id) :
    ∃ (i : Nat) (old upd : Todo),
      m.todos[i]? = some old ∧ old.ID = id ∧
      (∀ (j : Nat) (t : Todo), j < i → m.todos[j]? = some t → t.ID ≠ id) ∧
      (mainCase3 toLower m id titleLine answerLine).2 = some (upd, true) ∧
      (mainCase3 toLower m id titleLine answerLine).1.todos[i]? = some upd ∧
      (titleLine = "" → upd.Title = old.Title) ∧
      (titleLine ≠ "" → upd.Title = titleLine) ∧
      (toLower answerLine = "y" → upd.Completed = true) ∧
      (toLower answerLine = "n" → upd.Completed = false) ∧
      (toLower answerLine ≠ "y" → toLower answerLine ≠ "n" →
        upd.Completed = old.Completed) := by
  obtain ⟨i, hi⟩ := (rangeFind_isSome_iff id m.todos).2 h
  have hlt := rangeFind_lt id m.todos i hi
  obtain ⟨_, hid, _⟩ := rangeFind_some id m.todos i hi
  obtain ⟨_, hf2⟩ := rangeFind_first id m.todos i hi
  rw [mainCase3_some toLower m id titleLine answerLine i hi]
  rw [Update_some m id _ _ i hi]
  refine ⟨i, idx m.todos i, _, idx_getElem? m.todos i hlt, hid, hf2, rfl, ?_, ?_, ?_,
    ?_, ?_, ?_⟩
  · simp [List.getElem?_set, hlt]
  · intro ht
    simp [ht]
  · intro ht
    simp [ht]
  · intro ha
    simp [ha]
  · intro ha
    simp [ha]
  · intro hy hn
    simp [hy, hn]

/-- Instance: the update branch on the sample store for ID 2, an empty title
line and the answer "Y", lower-cased character by character. -/
theorem C16_main_update_branch_witness :
    (∃ t ∈ sampleStore.todos, t.ID = 2) ∧
    ∃ (i : Nat) (old upd : Todo),
      sampleStore.todos[i]? = some old ∧ old.ID = 2 ∧
      (∀ (j : Nat) (t : Todo), j < i → sampleStore.todos[j]? = some t → t.ID ≠ 2) ∧
      (mainCase3 String.toLower sampleStore 2 "" "Y").2 = some (upd, true) ∧
      (mainCase3 String.toLower sampleStore 2 "" "Y").1.todos[i]? = some upd ∧
      (("" : String) = "" → upd.Title = old.Title) ∧
      (("" : String) ≠ "" → upd.Title = "") ∧
      (String.toLower "Y" = "y" → upd.Completed = true) ∧
      (String.toLower "Y" = "n" → upd.Completed = false) ∧
      (String.toLower "Y" ≠ "y" → String.toLower "Y" ≠ "n" →
        upd.Completed = old.Completed) :=
  ⟨⟨{ ID := 2, Title := "Walk dog", Completed := false, CreatedAt := 20 },
      by simp [sampleStore], rfl⟩,
    C16_main_update_branch String.toLower sampleStore 2 "" "Y"
      ⟨{ ID := 2, Title := "Walk dog", Completed := false, CreatedAt := 20 },
        by simp [sampleStore], rfl⟩⟩

/-! ## Stores built from `NewTodoManager()` -/

theorem Issued_new (sz : IntSize) : Issued sz NewTodoManager 0 := by
  refine ⟨by simp [NewTodoManager, counterAt_zero], [], ?_, ?_, ?_⟩ <;>
    simp [NewTodoManager]

theorem Issued_step (sz : IntSize) (m : TodoManager) (n : Nat) (op : Op)
    (h : Issued sz m n) :
    Issued sz (step sz m op) (n + (if op.isAdd then 1 else 0)) := by
  obtain ⟨hn, ks, hp, hb, hm⟩ := h
  refine ⟨step_nextId_counterAt sz m op n hn, ?_⟩
  cases op with
  | add title now =>
    refine ⟨ks ++ [n], ?_, ?_, ?_⟩
    · rw [List.pairwise_append]
      refine ⟨hp, List.pairwise_singleton _ _, ?_⟩
      intro a ha b hb2
      rw [List.mem_singleton] at hb2
      rw [hb2]
      exact hb a ha
    · intro k hk
      simp only [Op.isAdd, if_true]
      rcases List.mem_append.1 hk with hk | hk
      · have := hb k hk
        omega
      · rw [List.mem_singleton] at hk
        omega
    · simp [step, TodoManager.Add, hm, hn]
  | getAll => exact ⟨ks, hp, by simpa [Op.isAdd] using hb, hm⟩
  | getByID id => exact ⟨ks, hp, by simpa [Op.isAdd] using hb, hm⟩
  | update id title c =>
    exact ⟨ks, hp, by simpa [Op.isAdd] using hb, by simpa [step, Update_ids] using hm⟩
  | delete id =>
    cases hr : rangeFind id m.todos with
    | none =>
      exact ⟨ks, hp, by simpa [Op.isAdd] using hb,
        by simpa [step, Delete_none m id hr] using hm⟩
    | some i =>
      refine ⟨ks.eraseIdx i, hp.sublist (List.eraseIdx_sublist _ _), ?_, ?_⟩
      · intro k hk
        have := hb k (List.mem_of_mem_eraseIdx hk)
        simpa [Op.isAdd] using this
      · simp only [step, Delete_some m id i hr, List.eraseIdx_eq_take_drop_succ,
          List.map_append, List.map_take, List.map_drop, hm]
  | toggleCompleted id =>
    exact ⟨ks, hp, by simpa [Op.isAdd] using hb,
      by simpa [step, ToggleCompleted_ids] using hm⟩

theorem Issued_exec (sz : IntSize) (m : TodoManager) (n : Nat) (ops : List Op)
    (h : Issued sz m n) : Issued sz (exec sz m ops) (n + ops.countP Op.isAdd) := by
  induction ops generalizing m n with
  | nil => simpa [exec] using h
  | cons op ops ih =>
    have := ih _ _ (Issued_step sz m n op h)
    rw [exec, List.countP_cons]
    rwa [Nat.add_assoc, Nat.add_comm (if op.isAdd = true then 1 else 0)] at this

theorem Issued_reachable (sz : IntSize) (ops : List Op) :
    Issued sz (exec sz NewTodoManager ops) (ops.countP Op.isAdd) := by
  simpa using Issued_exec sz NewTodoManager 0 ops (Issued_new sz)

/-- With at most `2^bits` executions of `Add` behind it, a store holds
pairwise distinct IDs. -/
theorem Issued_ids_distinct (sz : IntSize) (m : TodoManager) (n : Nat)
    (h : Issued sz m n) (hn : n ≤ 2 ^ sz.bits) :
    (m.todos.map Todo.ID).Pairwise (fun a b => a ≠ b) := by
  obtain ⟨_, ks, hp, hb, hm⟩ := h
  rw [hm, List.pairwise_map]
  refine hp.imp_of_mem ?_
  intro a b _ hbm hab
  have := hb b hbm
  exact counterAt_ne sz a b hab (by omega)

/-- With at most `maxInt` executions of `Add` behind it, a store holds IDs
that increase strictly along the slice and lie in `[1, n]`. -/
theorem Issued_ids_increasing (sz : IntSize) (m : TodoManager) (n : Nat)
    (h : Issued sz m n) (hn : (n : Int) ≤ maxInt sz) :
    (m.todos.map Todo.ID).Pairwise (fun a b => a < b) ∧
      ∀ x ∈ m.todos.map Todo.ID, 1 ≤ x ∧ x ≤ (n : Int) := by
  obtain ⟨_, ks, hp, hb, hm⟩ := h
  have hk : ∀ k ∈ ks, counterAt sz k = (k : Int) + 1 := by
    intro k hk
    have := hb k hk
    exact counterAt_of_lt sz k (by omega)
  rw [hm]
  constructor
  · rw [List.pairwise_map]
    refine hp.imp_of_mem ?_
    intro a b ha hbm hab
    rw [hk a ha, hk b hbm]
    omega
  · intro x hx
    obtain ⟨k, hkm, rfl⟩ := List.mem_map.1 hx
    have := hb k hkm
    rw [hk k hkm]
    omega

/-! ## Long runs: the counter wraps -/

theorem exec_append (sz : IntSize) (m : TodoManager) (ops1 ops2 : List Op) :
    exec sz m (ops1 ++ ops2) = exec sz (exec sz m ops1) ops2 := by
  induction ops1 generalizing m with
  | nil => rfl
  | cons op ops1 ih => simp [exec, ih]

theorem countP_churnOps (sz : IntSize) (k n : Nat) :
    (churnOps sz k n).countP Op.isAdd = n := by
  induction n generalizing k with
  | zero => simp [churnOps]
  | succ n ih => simp [churnOps, List.countP_cons, Op.isAdd, ih]

theorem eraseIdx_append_singleton (l : List Todo) (t : Todo) :
    (l ++ [t]).eraseIdx l.length = l := by
  induction l with
  | nil => rfl
  | cons a l ih => simp [List.eraseIdx_cons_succ, ih]

/-- A round of `churnOps` leaves the slice as it was, provided no item of the
slice carries an ID that the rounds issue. -/
theorem exec_churnOps (sz : IntSize) (m : TodoManager) (k n : Nat)
    (h : m.nextId = counterAt sz k)
    (hfree : ∀ t ∈ m.todos, ∀ j, k ≤ j → j < k + n → t.ID ≠ counterAt sz j) :
    exec sz m (churnOps sz k n)
      = { todos := m.todos, nextId := counterAt sz (k + n) } := by
  induction n generalizing m k with
  | zero =>
    simp only [churnOps, exec, Nat.add_zero]
    rw [← h]
  | succ n ih =>
    have hfind : rangeFind (counterAt sz k)
        (m.todos ++ [{ ID := m.nextId, Title := "x", Completed := false, CreatedAt := 0 }])
        = some m.todos.length :=
      rangeFind_append_singleton (counterAt sz k) m.todos _
        (fun t ht => hfree t ht k (Nat.le_refl k) (by omega)) h
    have hround : step sz (step sz m (Op.add "x" 0)) (Op.delete (counterAt sz k))
        = { todos := m.todos, nextId := counterAt sz (k + 1) } := by
      simp only [step, TodoManager.Add]
      rw [Delete_some _ _ _ hfind]
      simp [h, counterAt_succ, eraseIdx_append_singleton]
    simp only [churnOps, exec]
    rw [hround, ih _ (k + 1) rfl]
    · congr 2
      omega
    · intro t ht j hj1 hj2
      exact hfree t ht j (by omega) (by omega)


/-- The store that `keepThenChurn` leaves on a 32-bit target: the kept item
alone, and the counter back at 1 after `2^32` increments. -/
theorem exec_keepThenChurn :
    exec IntSize.bits32 NewTodoManager keepThenChurn
      = { todos := [{ ID := 1, Title := "keep", Completed := false, CreatedAt := 1 }],
          nextId := 1 } := by
  have h := exec_churnOps IntSize.bits32
    { todos := [{ ID := 1, Title := "keep", Completed := false, CreatedAt := 1 }],
      nextId := counterAt IntSize.bits32 1 } 1 (2 ^ 32 - 1) rfl
    (by
      intro t ht j hj1 hj2
      rw [List.mem_singleton] at ht
      rw [ht, ← counterAt_zero IntSize.bits32]
      exact counterAt_ne IntSize.bits32 0 j (by omega)
        (by simp only [IntSize.bits]; omega))
  have e : counterAt IntSize.bits32 (1 + (2 ^ 32 - 1)) = 1 := by decide
  rw [e] at h
  have e2 : step IntSize.bits32 NewTodoManager (Op.add "keep" 1)
      = { todos := [{ ID := 1, Title := "keep", Completed := false, CreatedAt := 1 }],
          nextId := counterAt IntSize.bits32 1 } := by decide
  rw [keepThenChurn, exec, e2]
  exact h

/-- The store that the rounds of `churnOps` leave on a 32-bit target when they
start on a new manager: empty, the counter advanced `n` times. -/
theorem exec_churnOps_new (n : Nat) :
    exec IntSize.bits32 NewTodoManager (churnOps IntSize.bits32 0 n)
      = { todos := [], nextId := counterAt IntSize.bits32 n } := by
  have h := exec_churnOps IntSize.bits32 NewTodoManager 0 n
    (by simp [NewTodoManager, counterAt_zero]) (by simp [NewTodoManager])
  simpa [NewTodoManager] using h

/-! ## The IDs that `Add` issues -/

/-- C1: starting from `NewTodoManager()`, whatever calls are mixed in,
as long as the sequence holds at most `maxInt` calls of `Add` (`2^31 - 1` or
`2^63 - 1` by the width of `int`), the items returned by the `Add` calls carry
the IDs 1, 2, 3, ... in call order: one returned item per `Add` call, the k-th
with ID k, deletions included. -/
theorem C1_add_ids_count_from_one (sz : IntSize) (ops : List Op)
    (h : ((ops.countP Op.isAdd : Nat) : Int) ≤ maxInt sz) :
    (addReturns sz NewTodoManager ops).map Todo.ID
      = (List.range (ops.countP Op.isAdd)).map (fun (k : Nat) => (k : Int) + 1) := by
  rw [addReturns_ids sz NewTodoManager ops 0 (by simp [NewTodoManager, counterAt_zero])]
  apply List.map_congr_left
  intro k hk
  rw [List.mem_range] at hk
  rw [Nat.zero_add]
  exact counterAt_of_lt sz k (by omega)

/-- Instance: the scenario `Add`, `Add`, `Delete(1)` on a 64-bit target. -/
theorem C1_add_ids_count_from_one_witness :
    (((scenarioOps.countP Op.isAdd : Nat) : Int) ≤ maxInt IntSize.bits64) ∧
    (addReturns IntSize.bits64 NewTodoManager scenarioOps).map Todo.ID
      = (List.range (scenarioOps.countP Op.isAdd)).map
        (fun (k : Nat) => (k : Int) + 1) :=
  ⟨by decide, C1_add_ids_count_from_one IntSize.bits64 scenarioOps (by decide)⟩

/-- On a 32-bit target, in `2^31` rounds of `Add` and `Delete` on a new
manager, the `Add` call number `2^31` returns the ID `-2^31`, not `2^31`: the
IDs returned are not 1, 2, 3, ... -/
theorem C1_add_ids_counterexample :
    ((addReturns IntSize.bits32 NewTodoManager
        (churnOps IntSize.bits32 0 (2 ^ 31))).map Todo.ID)[2 ^ 31 - 1]?
      = some (-2147483648) ∧
    ¬ ((addReturns IntSize.bits32 NewTodoManager
          (churnOps IntSize.bits32 0 (2 ^ 31))).map Todo.ID
        = (List.range ((churnOps IntSize.bits32 0 (2 ^ 31)).countP Op.isAdd)).map
            (fun (k : Nat) => (k : Int) + 1)) := by
  have hids := addReturns_ids IntSize.bits32 NewTodoManager
    (churnOps IntSize.bits32 0 (2 ^ 31)) 0 (by simp [NewTodoManager, counterAt_zero])
  rw [countP_churnOps] at hids
  have hval : ((addReturns IntSize.bits32 NewTodoManager
        (churnOps IntSize.bits32 0 (2 ^ 31))).map Todo.ID)[2 ^ 31 - 1]?
      = some (-2147483648) := by
    rw [hids, List.getElem?_map, List.getElem?_range (by decide)]
    decide
  refine ⟨hval, ?_⟩
  intro heq
  rw [heq, countP_churnOps, List.getElem?_map, List.getElem?_range (by decide)] at hval
  revert hval
  decide


/-- C2: in every store reached from `NewTodoManager()` by a sequence
with fewer than `2^bits` calls of `Add` (`bits` the width of `int`), `GetByID`
on the ID just returned by `Add(T)` reports found and yields the item `Add`
returned: its `Title` is `T`, its `Completed` is false and its `CreatedAt` is
the clock reading `now` taken by that `Add` call, hence not earlier than any
instant `callTime` at or before that reading. -/
theorem C2_add_then_getByID (sz : IntSize) (ops : List Op) (title : String)
    (now : Time) (h : ops.countP Op.isAdd < 2 ^ sz.bits) :
    (((exec sz NewTodoManager ops).Add sz title now).1.GetByID
        ((exec sz NewTodoManager ops).Add sz title now).2.ID)
      = (((exec sz NewTodoManager ops).Add sz title now).2, true) ∧
    ((exec sz NewTodoManager ops).Add sz title now).2.Title = title ∧
    ((exec sz NewTodoManager ops).Add sz title now).2.Completed = false ∧
    ((exec sz NewTodoManager ops).Add sz title now).2.CreatedAt = now ∧
    ∀ callTime : Time, callTime ≤ now →
      callTime ≤ (((exec sz NewTodoManager ops).Add sz title now).1.GetByID
        ((exec sz NewTodoManager ops).Add sz title now).2.ID).1.CreatedAt := by
  obtain ⟨hn, ks, _, hb, hm⟩ := Issued_reachable sz ops
  have hfind : rangeFind (exec sz NewTodoManager ops).nextId
      ((exec sz NewTodoManager ops).todos ++
        [{ ID := (exec sz NewTodoManager ops).nextId, Title := title,
           Completed := false, CreatedAt := now }])
      = some (exec sz NewTodoManager ops).todos.length := by
    refine rangeFind_append_singleton (exec sz NewTodoManager ops).nextId _ _ ?_ rfl
    intro x hx hid
    have hmem : x.ID ∈ (exec sz NewTodoManager ops).todos.map Todo.ID :=
      List.mem_map_of_mem _ hx
    rw [hm] at hmem
    obtain ⟨k, hk, hkx⟩ := List.mem_map.1 hmem
    have hlt := hb k hk
    rw [hn] at hid
    exact counterAt_ne sz k _ hlt (by omega) (hkx.trans hid)
  have hget : (((exec sz NewTodoManager ops).Add sz title now).1.GetByID
        ((exec sz NewTodoManager ops).Add sz title now).2.ID)
      = (((exec sz NewTodoManager ops).Add sz title now).2, true) := by
    rw [GetByID_some _ _ _ hfind]
    simp only [TodoManager.Add, idx_append_length]
  refine ⟨hget, rfl, rfl, rfl, ?_⟩
  intro callTime hc
  rw [hget]
  exact hc

/-- Instance: `Add("Feed cat")` at clock reading 30 after the scenario `Add`,
`Add`, `Delete(1)` on a 64-bit target. -/
theorem C2_add_then_getByID_witness :
    (scenarioOps.countP Op.isAdd < 2 ^ IntSize.bits64.bits) ∧
    (((exec IntSize.bits64 NewTodoManager scenarioOps).Add
          IntSize.bits64 "Feed cat" 30).1.GetByID
        ((exec IntSize.bits64 NewTodoManager scenarioOps).Add
          IntSize.bits64 "Feed cat" 30).2.ID)
      = (((exec IntSize.bits64 NewTodoManager scenarioOps).Add
          IntSize.bits64 "Feed cat" 30).2, true) ∧
    ((exec IntSize.bits64 NewTodoManager scenarioOps).Add
      IntSize.bits64 "Feed cat" 30).2.Title = "Feed cat" ∧
    ((exec IntSize.bits64 NewTodoManager scenarioOps).Add
      IntSize.bits64 "Feed cat" 30).2.Completed = false ∧
    ((exec IntSize.bits64 NewTodoManager scenarioOps).Add
      IntSize.bits64 "Feed cat" 30).2.CreatedAt = 30 ∧
    ∀ callTime : Time, callTime ≤ 30 →
      callTime ≤ (((exec IntSize.bits64 NewTodoManager scenarioOps).Add
          IntSize.bits64 "Feed cat" 30).1.GetByID
        ((exec IntSize.bits64 NewTodoManager scenarioOps).Add
          IntSize.bits64 "Feed cat" 30).2.ID).1.CreatedAt :=
  ⟨by decide,
    C2_add_then_getByID IntSize.bits64 scenarioOps "Feed cat" 30 (by decide)⟩

/-- On a 32-bit target, after `keepThenChurn` the counter has come back to 1
while the item with ID 1 is still stored: `Add("new")` returns an item with ID
1, and `GetByID` on that ID yields the old item, titled "keep". -/
theorem C2_add_then_getByID_counterexample :
    ((exec IntSize.bits32 NewTodoManager keepThenChurn).Add
        IntSize.bits32 "new" 2).2
      = { ID := 1, Title := "new", Completed := false, CreatedAt := 2 } ∧
    (((exec IntSize.bits32 NewTodoManager keepThenChurn).Add
        IntSize.bits32 "new" 2).1.GetByID
      ((exec IntSize.bits32 NewTodoManager keepThenChurn).Add
        IntSize.bits32 "new" 2).2.ID)
      = ({ ID := 1, Title := "keep", Completed := false, CreatedAt := 1 }, true) ∧
    (((exec IntSize.bits32 NewTodoManager keepThenChurn).Add
        IntSize.bits32 "new" 2).1.GetByID
      ((exec IntSize.bits32 NewTodoManager keepThenChurn).Add
        IntSize.bits32 "new" 2).2.ID).1.Title ≠ "new" := by
  rw [exec_keepThenChurn]
  decide

/-! ## Distinct IDs -/

theorem rangeFind_eraseIdx_none (id : Int) (l : List Todo) (i : Nat)
    (hp : (l.map Todo.ID).Pairwise (fun a b => a ≠ b))
    (h : rangeFind id l = some i) : rangeFind id (l.eraseIdx i) = none := by
  induction l generalizing i with
  | nil => simp [rangeFind] at h
  | cons a l ih =>
    rw [List.map_cons, List.pairwise_cons] at hp
    by_cases ha : a.ID = id
    · simp [rangeFind, ha] at h
      subst h
      rw [List.eraseIdx_cons_zero, rangeFind_none_iff]
      intro t ht hid
      exact hp.1 t.ID (List.mem_map_of_mem _ ht) (ha.trans hid.symm)
    · simp [rangeFind, ha] at h
      obtain ⟨k, hk, rfl⟩ := h
      rw [List.eraseIdx_cons_succ]
      simp [rangeFind, ha, ih k hp.2 hk]

/-- C3: in every store reached from `NewTodoManager()` by a sequence
with at most `2^bits` calls of `Add` (`bits` the width of `int`) and for every
integer `id`, present or not, `GetByID(id)` right after `Delete(id)` reports
not-found (the zero `Todo` and false). -/
theorem C3_delete_then_getByID_not_found (sz : IntSize) (ops : List Op) (id : Int)
    (h : ops.countP Op.isAdd ≤ 2 ^ sz.bits) :
    ((exec sz NewTodoManager ops).Delete id).1.GetByID id = (Todo.zero, false) := by
  have hp := Issued_ids_distinct sz _ _ (Issued_reachable sz ops) h
  cases hr : rangeFind id (exec sz NewTodoManager ops).todos with
  | none =>
    rw [Delete_none _ _ hr]
    exact GetByID_none _ _ hr
  | some i =>
    rw [Delete_some _ _ _ hr]
    exact GetByID_none _ _ (rangeFind_eraseIdx_none id _ i hp hr)

/-- Instance: `Delete(2)` then `GetByID(2)` after the scenario `Add`, `Add`,
`Delete(1)` on a 64-bit target. -/
theorem C3_delete_then_getByID_not_found_witness :
    (scenarioOps.countP Op.isAdd ≤ 2 ^ IntSize.bits64.bits) ∧
    ((exec IntSize.bits64 NewTodoManager scenarioOps).Delete 2).1.GetByID 2
      = (Todo.zero, false) :=
  ⟨by decide,
    C3_delete_then_getByID_not_found IntSize.bits64 scenarioOps 2 (by decide)⟩

/-- On a 32-bit target, `keepThenChurn` followed by `Add("again")` leaves two
items with ID 1; `Delete(1)` removes the first, and `GetByID(1)` then reports
found, with the second. -/
theorem C3_delete_then_getByID_counterexample :
    ((exec IntSize.bits32 NewTodoManager
        (keepThenChurn ++ [Op.add "again" 2])).Delete 1).1.GetByID 1
      = ({ ID := 1, Title := "again", Completed := false, CreatedAt := 2 }, true) ∧
    ((exec IntSize.bits32 NewTodoManager
        (keepThenChurn ++ [Op.add "again" 2])).Delete 1).1.GetByID 1
      ≠ (Todo.zero, false) := by
  rw [exec_append, exec_keepThenChurn]
  decide

/-- C9: in every store reached from `NewTodoManager()` by a finite
sequence of calls with at most `2^bits` calls of `Add` (`bits` the width of
`int`), the IDs of the items in the store are pairwise distinct. -/
theorem C9_ids_pairwise_distinct (sz : IntSize) (ops : List Op)
    (h : ops.countP Op.isAdd ≤ 2 ^ sz.bits) :
    (exec sz NewTodoManager ops).todos.Pairwise (fun a b => a.ID ≠ b.ID) := by
  have hp := Issued_ids_distinct sz _ _ (Issued_reachable sz ops) h
  rwa [List.pairwise_map] at hp

/-- Instance: the store of the scenario `Add`, `Add`, `Add`, `Delete(2)` on a
32-bit target. -/
theorem C9_ids_pairwise_distinct_witness :
    ([Op.add "a" 1, Op.add "b" 2, Op.add "c" 3, Op.delete 2].countP Op.isAdd
        ≤ 2 ^ IntSize.bits32.bits) ∧
    (exec IntSize.bits32 NewTodoManager
        [Op.add "a" 1, Op.add "b" 2, Op.add "c" 3, Op.delete 2]).todos.Pairwise
      (fun a b => a.ID ≠ b.ID) :=
  ⟨by decide,
    C9_ids_pairwise_distinct IntSize.bits32
      [Op.add "a" 1, Op.add "b" 2, Op.add "c" 3, Op.delete 2] (by decide)⟩

/-- On a 32-bit target, `keepThenChurn` followed by `Add("again")` leaves the
store with two items of ID 1. -/
theorem C9_ids_pairwise_distinct_counterexample :
    (exec IntSize.bits32 NewTodoManager (keepThenChurn ++ [Op.add "again" 2])).todos
      = [{ ID := 1, Title := "keep", Completed := false, CreatedAt := 1 },
         { ID := 1, Title := "again", Completed := false, CreatedAt := 2 }] ∧
    ¬ (exec IntSize.bits32 NewTodoManager
        (keepThenChurn ++ [Op.add "again" 2])).todos.Pairwise
      (fun a b => a.ID ≠ b.ID) := by
  rw [exec_append, exec_keepThenChurn]
  decide


/-! ## The counter stays above the issued IDs -/

/-- C10: after any finite sequence of calls on `NewTodoManager()`
with fewer than `maxInt` calls of `Add` (`maxInt` being `2^31 - 1` or
`2^63 - 1` by the width of `int`), `nextId` is strictly greater than the ID of
every item an `Add` call of the sequence returned and every ID in the store
lies in `[1, nextId)`; on any store, `Update`, `Delete`, `ToggleCompleted`,
`GetByID` and `GetAll` leave `nextId` as it was, and `Add` alone moves it, to
the wrapped successor. -/
theorem C10_nextId_above_issued_ids (sz : IntSize) (ops : List Op)
    (h : ((ops.countP Op.isAdd : Nat) : Int) < maxInt sz) :
    (∀ t ∈ addReturns sz NewTodoManager ops,
      t.ID < (exec sz NewTodoManager ops).nextId) ∧
    (∀ t ∈ (exec sz NewTodoManager ops).todos,
      1 ≤ t.ID ∧ t.ID < (exec sz NewTodoManager ops).nextId) ∧
    (∀ (m : TodoManager) (id : Int) (title : String) (c : Bool),
      (m.Update id title c).1.nextId = m.nextId ∧
      (m.Delete id).1.nextId = m.nextId ∧
      (m.ToggleCompleted id).1.nextId = m.nextId) ∧
    (∀ (m : TodoManager) (op : Op),
      (step sz m op).nextId
        = if op.isAdd then wrapInt sz (m.nextId + 1) else m.nextId) := by
  have hI := Issued_reachable sz ops
  have hnext : (exec sz NewTodoManager ops).nextId
      = ((ops.countP Op.isAdd : Nat) : Int) + 1 := by
    rw [hI.1]
    exact counterAt_of_lt sz _ h
  refine ⟨?_, ?_, ?_, step_nextId sz⟩
  · intro t ht
    have hmem : t.ID ∈ (addReturns sz NewTodoManager ops).map Todo.ID :=
      List.mem_map_of_mem _ ht
    rw [addReturns_ids sz NewTodoManager ops 0
      (by simp [NewTodoManager, counterAt_zero])] at hmem
    obtain ⟨j, hj, hjt⟩ := List.mem_map.1 hmem
    rw [List.mem_range] at hj
    rw [Nat.zero_add, counterAt_of_lt sz j (by omega)] at hjt
    rw [hnext, ← hjt]
    omega
  · intro t ht
    have := (Issued_ids_increasing sz _ _ hI (le_of_lt h)).2 t.ID
      (List.mem_map_of_mem _ ht)
    rw [hnext]
    omega
  · intro m id title c
    exact ⟨Update_nextId m id title c, Delete_nextId m id, ToggleCompleted_nextId m id⟩

/-- Instance: the scenario `Add`, `Add`, `Delete(1)` on a 32-bit target. -/
theorem C10_nextId_above_issued_ids_witness :
    (((scenarioOps.countP Op.isAdd : Nat) : Int) < maxInt IntSize.bits32) ∧
    (∀ t ∈ addReturns IntSize.bits32 NewTodoManager scenarioOps,
      t.ID < (exec IntSize.bits32 NewTodoManager scenarioOps).nextId) ∧
    (∀ t ∈ (exec IntSize.bits32 NewTodoManager scenarioOps).todos,
      1 ≤ t.ID ∧ t.ID < (exec IntSize.bits32 NewTodoManager scenarioOps).nextId) ∧
    (∀ (m : TodoManager) (id : Int) (title : String) (c : Bool),
      (m.Update id title c).1.nextId = m.nextId ∧
      (m.Delete id).1.nextId = m.nextId ∧
      (m.ToggleCompleted id).1.nextId = m.nextId) ∧
    (∀ (m : TodoManager) (op : Op),
      (step IntSize.bits32 m op).nextId
        = if op.isAdd then wrapInt IntSize.bits32 (m.nextId + 1) else m.nextId) :=
  ⟨by decide, C10_nextId_above_issued_ids IntSize.bits32 scenarioOps (by decide)⟩

/-- On a 32-bit target, after `2^31 - 2` rounds of `Add` and `Delete` and one
more `Add`, the store holds the item that `Add` returned, with ID `2^31 - 1`,
and `nextId` has wrapped to `-2^31`, below that ID. -/
theorem C10_nextId_above_issued_ids_counterexample :
    exec IntSize.bits32 NewTodoManager
        (churnOps IntSize.bits32 0 (2 ^ 31 - 2) ++ [Op.add "last" 0])
      = { todos := [{ ID := 2147483647, Title := "last", Completed := false,
                      CreatedAt := 0 }],
          nextId := -2147483648 } ∧
    (¬ ∀ t ∈ (exec IntSize.bits32 NewTodoManager
          (churnOps IntSize.bits32 0 (2 ^ 31 - 2) ++ [Op.add "last" 0])).todos,
        1 ≤ t.ID ∧ t.ID < (exec IntSize.bits32 NewTodoManager
          (churnOps IntSize.bits32 0 (2 ^ 31 - 2) ++ [Op.add "last" 0])).nextId) ∧
    (¬ ∀ t ∈ addReturns IntSize.bits32 NewTodoManager
          (churnOps IntSize.bits32 0 (2 ^ 31 - 2) ++ [Op.add "last" 0]),
        t.ID < (exec IntSize.bits32 NewTodoManager
          (churnOps IntSize.bits32 0 (2 ^ 31 - 2) ++ [Op.add "last" 0])).nextId) := by
  have hex : exec IntSize.bits32 NewTodoManager
        (churnOps IntSize.bits32 0 (2 ^ 31 - 2) ++ [Op.add "last" 0])
      = { todos := [{ ID := 2147483647, Title := "last", Completed := false,
                      CreatedAt := 0 }],
          nextId := -2147483648 } := by
    rw [exec_append, exec_churnOps_new]
    decide
  have hids := addReturns_ids IntSize.bits32 NewTodoManager
    (churnOps IntSize.bits32 0 (2 ^ 31 - 2) ++ [Op.add "last" 0]) 0
    (by simp [NewTodoManager, counterAt_zero])
  have hcount : (churnOps IntSize.bits32 0 (2 ^ 31 - 2) ++ [Op.add "last" 0]).countP
      Op.isAdd = 2 ^ 31 - 1 := by
    rw [List.countP_append, countP_churnOps]
    decide
  rw [hcount] at hids
  have hmem : (2147483647 : Int) ∈ (addReturns IntSize.bits32 NewTodoManager
      (churnOps IntSize.bits32 0 (2 ^ 31 - 2) ++ [Op.add "last" 0])).map Todo.ID := by
    rw [hids]
    exact List.mem_map.2 ⟨2 ^ 31 - 2, List.mem_range.2 (by decide), by decide⟩
  obtain ⟨t, ht, htid⟩ := List.mem_map.1 hmem
  refine ⟨hex, ?_, ?_⟩
  · rw [hex]
    decide
  · intro hall
    have := hall t ht
    rw [hex, htid] at this
    revert this
    decide


/-! ## Add -/

end GoTodo
